import Mathlib

/-!
# Verification of the generic query-processing pipeline

Shallow embedding of the `FilterService` class
(`admin-api/src/services/orders.service.ts` / `filter.service.ts`): value
coercion (`convertFilterValue`), predicate building against the DynamoDB
scan query (`applyDynamoDBFilters`), in-memory sorting (`applySorting`),
pagination (`applyPagination`) and the orchestrator (`processQuery`).

Host-language / store primitives (JS strings, `Array.prototype.sort`,
`Array.prototype.slice`, `decodeURIComponent`, DynamoDB comparison
semantics) are modelled explicitly; each model is documented at its
definition.
-/

namespace FilterService

/-- A DynamoDB attribute value as the pipeline sees it.  JS numbers are
modelled as integers (the claims only involve integer literals); `Date`
values by their millisecond timestamp (`getTime`); `null` is the explicit
JSON null, while an absent attribute is `Option.none` at the record level.
`undef` is the JS `undefined` value itself, which the pipeline can produce
as a filter operand: `convertFilterValue` returns its `value` argument
unchanged through the `String`/default branch, and that argument is
`undefined` when the filter string has no third part. -/
inductive Value
  | str (s : String)
  | num (n : Int)
  | date (t : Int)
  | bool (b : Bool)
  | null
  | undef
deriving DecidableEq

/-- A record (DynamoDB item): an association list from attribute name to
value.  An absent key models a JS `undefined` field access. -/
abbrev Item := List (String × Value)

/-- `a[field]` on an item: `some v` when the attribute is present,
`none` when the access would yield `undefined`. -/
def getField (r : Item) (f : String) : Option Value :=
  (r.find? (fun p => decide (p.1 = f))).map (fun p => p.2)

/-! ## String primitives of the host language, modelled on `List Char` -/

/-- Code-point comparison of character lists, yielding the JS comparator
convention (-1 / 0 / 1).  Models the sign of `String.prototype.localeCompare`
(locale-aware collation modelled as code-point order). -/
def charListCmp : List Char → List Char → Int
  | [], [] => 0
  | [], _ :: _ => -1
  | _ :: _, [] => 1
  | a :: as, b :: bs =>
    if a.toNat < b.toNat then -1
    else if b.toNat < a.toNat then 1
    else charListCmp as bs

/-- Sign of `a.localeCompare(b)`. -/
def strCmp (a b : String) : Int := charListCmp a.data b.data

def isPrefixList : List Char → List Char → Bool
  | [], _ => true
  | _ :: _, [] => false
  | a :: as, b :: bs => a == b && isPrefixList as bs

def containsList (needle : List Char) : List Char → Bool
  | [] => needle.isEmpty
  | c :: rest => isPrefixList needle (c :: rest) || containsList needle rest

/-- `hay.includes(needle)` — substring containment. -/
def strContainsB (hay needle : String) : Bool := containsList needle.data hay.data

/-- Auxiliary scanner for `String.prototype.split('||')`. -/
def splitPipesAux (cur : List Char) : List Char → List (List Char)
  | [] => [cur.reverse]
  | '|' :: '|' :: rest => cur.reverse :: splitPipesAux [] rest
  | c :: rest => splitPipesAux (c :: cur) rest

/-- `s.split('||')` — the filter-string delimiter used by the source. -/
def splitPipes (s : String) : List String :=
  (splitPipesAux [] s.data).map (fun cs => String.mk cs)

/-- Auxiliary scanner for `String.prototype.split(',')`. -/
def splitCommasAux (cur : List Char) : List Char → List (List Char)
  | [] => [cur.reverse]
  | ',' :: rest => cur.reverse :: splitCommasAux [] rest
  | c :: rest => splitCommasAux (c :: cur) rest

/-- `s.split(',')` — used for `between` endpoints and the sort spec. -/
def splitCommas (s : String) : List String :=
  (splitCommasAux [] s.data).map (fun cs => String.mk cs)

def upperChar (c : Char) : Char :=
  if 97 ≤ c.toNat && c.toNat ≤ 122 then Char.ofNat (c.toNat - 32) else c

/-- `s.toUpperCase()` (ASCII range, which is all the source compares). -/
def upperStr (s : String) : String := String.mk (s.data.map upperChar)

def lowerChar (c : Char) : Char :=
  if 65 ≤ c.toNat && c.toNat ≤ 90 then Char.ofNat (c.toNat + 32) else c

/-- `s.toLowerCase()` (ASCII range). -/
def lowerStr (s : String) : String := String.mk (s.data.map lowerChar)

def hexVal? (c : Char) : Option Nat :=
  if 48 ≤ c.toNat && c.toNat ≤ 57 then some (c.toNat - 48)
  else if 65 ≤ c.toNat && c.toNat ≤ 70 then some (c.toNat - 55)
  else if 97 ≤ c.toNat && c.toNat ≤ 102 then some (c.toNat - 87)
  else none

/-- Lower bound on the second UTF-8 byte for a given leading byte: the
shortest-form and range exclusions of the strict UTF-8 table used by the
ECMAScript `Decode` algorithm (`E0` needs `A0..`, `F0` needs `90..`). -/
def utf8Lo (b1 : Nat) : Nat :=
  if b1 = 224 then 160 else if b1 = 240 then 144 else 128

/-- Upper bound on the second UTF-8 byte (`ED` caps at `9F` to exclude
surrogates, `F4` at `8F` to cap at U+10FFFF). -/
def utf8Hi (b1 : Nat) : Nat :=
  if b1 = 237 then 159 else if b1 = 244 then 143 else 191

/-- Model of the host `decodeURIComponent`, following the ECMAScript
`Decode` algorithm: a `%` must be followed by two hex digits; a byte below
`0x80` decodes to itself; a leading byte `C2..DF`/`E0..EF`/`F0..F4` must
be followed by the right number of further `%XX` continuation bytes in
the strict UTF-8 ranges (shortest form only, no surrogates, at most
U+10FFFF), decoding to the encoded code point; anything else raises
`URIError: URI malformed`.  Code points stand for the UTF-16 units the
host would produce. -/
def decodeURIComponentAux : List Char → Except String (List Char)
  | [] => .ok []
  | '%' :: c1 :: c2 :: rest =>
    match hexVal? c1, hexVal? c2 with
    | some h1, some l1 =>
      let b1 := 16 * h1 + l1
      if b1 < 128 then
        (decodeURIComponentAux rest).map (fun cs => Char.ofNat b1 :: cs)
      else if 194 ≤ b1 && b1 ≤ 223 then
        match rest with
        | '%' :: c3 :: c4 :: rest2 =>
          (match hexVal? c3, hexVal? c4 with
           | some h2, some l2 =>
             let b2 := 16 * h2 + l2
             if 128 ≤ b2 && b2 ≤ 191 then
               (decodeURIComponentAux rest2).map (fun cs =>
                 Char.ofNat ((b1 - 192) * 64 + (b2 - 128)) :: cs)
             else .error "URIError: URI malformed"
           | _, _ => .error "URIError: URI malformed")
        | _ => .error "URIError: URI malformed"
      else if 224 ≤ b1 && b1 ≤ 239 then
        match rest with
        | '%' :: c3 :: c4 :: '%' :: c5 :: c6 :: rest2 =>
          (match hexVal? c3, hexVal? c4, hexVal? c5, hexVal? c6 with
           | some h2, some l2, some h3, some l3 =>
             let b2 := 16 * h2 + l2
             let b3 := 16 * h3 + l3
             if utf8Lo b1 ≤ b2 && b2 ≤ utf8Hi b1 && 128 ≤ b3 && b3 ≤ 191 then
               (decodeURIComponentAux rest2).map (fun cs =>
                 Char.ofNat ((b1 - 224) * 4096 + (b2 - 128) * 64 + (b3 - 128)) :: cs)
             else .error "URIError: URI malformed"
           | _, _, _, _ => .error "URIError: URI malformed")
        | _ => .error "URIError: URI malformed"
      else if 240 ≤ b1 && b1 ≤ 244 then
        match rest with
        | '%' :: c3 :: c4 :: '%' :: c5 :: c6 :: '%' :: c7 :: c8 :: rest2 =>
          (match hexVal? c3, hexVal? c4, hexVal? c5, hexVal? c6,
              hexVal? c7, hexVal? c8 with
           | some h2, some l2, some h3, some l3, some h4, some l4 =>
             let b2 := 16 * h2 + l2
             let b3 := 16 * h3 + l3
             let b4 := 16 * h4 + l4
             if utf8Lo b1 ≤ b2 && b2 ≤ utf8Hi b1 && 128 ≤ b3 && b3 ≤ 191
                 && 128 ≤ b4 && b4 ≤ 191 then
               (decodeURIComponentAux rest2).map (fun cs =>
                 Char.ofNat ((b1 - 240) * 262144 + (b2 - 128) * 4096
                   + (b3 - 128) * 64 + (b4 - 128)) :: cs)
             else .error "URIError: URI malformed"
           | _, _, _, _, _, _ => .error "URIError: URI malformed")
        | _ => .error "URIError: URI malformed"
      else .error "URIError: URI malformed"
    | _, _ => .error "URIError: URI malformed"
  | c :: rest => (decodeURIComponentAux rest).map (fun cs => c :: cs)

/-- `decodeURIComponent(s)`: the decoded string, or the `URIError` the
host raises on a malformed escape. -/
def decodeURIComponentE (s : String) : Except String String :=
  (decodeURIComponentAux s.data).map String.mk

/-! ## Value coercion (`convertFilterValue`) -/

/-- Lookup in a `Record<string, string>` (the field-type map). -/
def lookupStr (m : List (String × String)) (k : String) : Option String :=
  (m.find? (fun p => decide (p.1 = k))).map (fun p => p.2)

def digitVal? (c : Char) : Option Nat :=
  if 48 ≤ c.toNat && c.toNat ≤ 57 then some (c.toNat - 48) else none

def natOfDigitsAux : List Char → Nat → Option Nat
  | [], acc => some acc
  | c :: rest, acc =>
    match digitVal? c with
    | some d => natOfDigitsAux rest (10 * acc + d)
    | none => none

/-- `Number(value)`, modelled on integer literals (`Number('') = 0` as in
JS); a non-numeric string (`NaN` in JS, which matches no stored attribute)
is outside the claims and modelled as `0`. -/
def jsNumberOfString (s : String) : Int :=
  match s.data with
  | [] => 0
  | '-' :: rest =>
    (match natOfDigitsAux rest 0 with
     | some n => -(n : Int)
     | none => 0)
  | cs =>
    (match natOfDigitsAux cs 0 with
     | some n => (n : Int)
     | none => 0)

/-- `new Date(value).getTime()`, modelled as an injection of the timestamp
string into the integers that preserves the order of equal-length ISO-8601
strings.  No claim depends on the parse itself. -/
def jsDateParse (s : String) : Int :=
  s.data.foldl (fun a c => a * 257 + (c.toNat + 1)) 0

/-- `FilterService.convertFilterValue`: convert a raw filter value to the
entity's native type according to the field-type map.  The `value`
parameter is the third `'||'` part of the filter string, so it can be
`undefined` (`none`): `Number(undefined)` and `new Date(undefined)` are
`NaN`/Invalid Date (outside the integer model like other non-numeric
input, modelled as `0`); the `Boolean` case calls `value.toLowerCase()`
and therefore throws a `TypeError` on `undefined`; the `String`/default
case returns `value` unchanged — `undefined` included. -/
def convertFilterValue (field : String) (value : Option String)
    (fieldTypes : List (String × String)) : Except String Value :=
  match lookupStr fieldTypes field with
  | some "Number" => .ok (.num (jsNumberOfString (value.getD "")))
  | some "Date" => .ok (.date (jsDateParse (value.getD "")))
  | some "Boolean" =>
    (match value with
     | none =>
       .error "TypeError: Cannot read properties of undefined (reading 'toLowerCase')"
     | some v => .ok (.bool (decide (lowerStr v = "true"))))
  | _ =>
    (match value with
     | none => .ok .undef
     | some v => .ok (.str v))

/-! ## Scan-query conditions (the dynamoose `where(...).op(...)` calls) -/

/-- One condition attached to the DynamoDB scan query.  Each constructor
is one `scanQuery.where(field).<op>(...)` call made by
`applyDynamoDBFilters`. -/
inductive Cond
  | eq (field : String) (v : Value)
  | ne (field : String) (v : Value)
  | contains (field : String) (v : Option String)
  | between (field : String) (lo hi : String)
  | gt (field : String) (v : Value)
  | ge (field : String) (v : Value)
  | lt (field : String) (v : Value)
  | le (field : String) (v : Value)
  | null (field : String)
  | notNull (field : String)
deriving DecidableEq

/-- DynamoDB compares only attributes of the same type; `some c` is the
comparison sign, `none` a type mismatch (which matches nothing). -/
def valueCmp? : Value → Value → Option Int
  | .str a, .str b => some (strCmp a b)
  | .num a, .num b => some (a - b)
  | .date a, .date b => some (a - b)
  | _, _ => none

/-- Evaluation of one scan condition against an item — the store-side
filter-expression semantics: equality is native equality, `contains` is
substring containment on string attributes (the source passes the raw,
possibly-undefined third filter part as the operand; an undefined operand
matches nothing, since the store rejects such an expression), `between`
is the inclusive range on string attributes (the source passes its
endpoints as strings), ordering comparisons require matching types, and
the NULL checks test absent/null versus present (per the store adapter's
documentation). -/
def evalCond (c : Cond) (r : Item) : Bool :=
  match c with
  | .eq f v => match getField r f with
    | some w => decide (w = v)
    | none => false
  | .ne f v => match getField r f with
    | some w => !(decide (w = v))
    | none => false
  | .contains f v => match getField r f with
    | some (.str s) =>
      (match v with
       | some vv => strContainsB s vv
       | none => false)
    | _ => false
  | .between f lo hi => match getField r f with
    | some (.str s) => decide (strCmp lo s ≤ 0) && decide (strCmp s hi ≤ 0)
    | _ => false
  | .gt f v => match getField r f with
    | some w => match valueCmp? w v with
      | some c => decide (0 < c)
      | none => false
    | none => false
  | .ge f v => match getField r f with
    | some w => match valueCmp? w v with
      | some c => decide (0 ≤ c)
      | none => false
    | none => false
  | .lt f v => match getField r f with
    | some w => match valueCmp? w v with
      | some c => decide (c < 0)
      | none => false
    | none => false
  | .le f v => match getField r f with
    | some w => match valueCmp? w v with
      | some c => decide (c ≤ 0)
      | none => false
    | none => false
  | .null f => match getField r f with
    | some .null => true
    | none => true
    | _ => false
  | .notNull f => match getField r f with
    | some .null => false
    | none => false
    | _ => true

/-! ## Predicate building (`applyDynamoDBFilters`) -/

/-- One iteration of the `filters.forEach` loop in
`FilterService.applyDynamoDBFilters`: split the filter string on `'||'`,
dispatch on the operator, and append the corresponding `where` condition
to the scan query.  The `switch` on the operator string is rendered as an
`if` chain; an unrecognized (or absent) operator falls through to the
final branch and leaves the query unchanged.  The `value` passed on is
the third destructured part, `undefined` (`none`) when absent.  The loop
can throw, modelled as `Except.error`: `convertFilterValue` raises a
`TypeError` for a Boolean-typed field with an undefined value; in the
`between` branch `value.includes(',')` raises a `TypeError` when `value`
is undefined, and `decodeURIComponent` (mapped over every comma-split
piece) raises `URIError` on a malformed escape. -/
def applyFilterStr (acc : List Cond) (filterStr : String)
    (fieldTypes : List (String × String)) : Except String (List Cond) :=
  let parts := splitPipes filterStr
  let field := (parts.get? 0).getD ""
  let op? := parts.get? 1
  let value? := parts.get? 2
  if op? = some "eq" then
    (convertFilterValue field value? fieldTypes).bind fun filterValue =>
      .ok (acc ++ [.eq field filterValue])
  else if op? = some "ne" then
    (convertFilterValue field value? fieldTypes).bind fun filterValue =>
      .ok (acc ++ [.ne field filterValue])
  else if op? = some "cont" then
    .ok (acc ++ [.contains field value?])
  else if op? = some "between" then
    match value? with
    | none => .error "TypeError: Cannot read properties of undefined (reading 'includes')"
    | some v =>
      if strContainsB v "," then
        ((splitCommas v).mapM decodeURIComponentE).bind fun pieces =>
          .ok (acc ++ [.between field ((pieces.get? 0).getD "") ((pieces.get? 1).getD "")])
      else
        .ok acc
  else if op? = some "gt" then
    (convertFilterValue field value? fieldTypes).bind fun filterValue =>
      .ok (acc ++ [.gt field filterValue])
  else if op? = some "gte" then
    (convertFilterValue field value? fieldTypes).bind fun filterValue =>
      .ok (acc ++ [.ge field filterValue])
  else if op? = some "lt" then
    (convertFilterValue field value? fieldTypes).bind fun filterValue =>
      .ok (acc ++ [.lt field filterValue])
  else if op? = some "lte" then
    (convertFilterValue field value? fieldTypes).bind fun filterValue =>
      .ok (acc ++ [.le field filterValue])
  else if op? = some "isnull" then
    .ok (acc ++ [.null field])
  else if op? = some "notnull" then
    .ok (acc ++ [.notNull field])
  else
    .ok acc

/-- `FilterService.applyDynamoDBFilters`: fold the forEach loop over the
filter strings, threading the scan query (its accumulated condition
list). -/
def applyDynamoDBFilters (scanConds : List Cond) (filters : List String)
    (fieldTypes : List (String × String)) : Except String (List Cond) :=
  filters.foldlM (fun acc s => applyFilterStr acc s fieldTypes) scanConds

/-! ## Sorting (`applySorting`) -/

/-- Stable insertion of `x` into `l` under a JS comparator: `x` is placed
before the first element that compares strictly greater than it
(`cmp x y < 0`), after all elements comparing less-or-equal — the placement
every stable comparison sort produces for a consistent comparator. -/
def insertJS (cmp : α → α → Int) (x : α) : List α → List α
  | [] => [x]
  | y :: ys => if cmp x y < 0 then x :: y :: ys else y :: insertJS cmp x ys

/-- Model of `[...data].sort(comparator)`: the canonical stable comparison
sort (insertion based).  ECMAScript requires `Array.prototype.sort` to be
stable, which pins this result down whenever the comparator is consistent;
for an inconsistent comparator the host's order is implementation-defined
and the engine may return a different permutation than this model, so only
properties that hold for every stable comparison sort are read back onto
the program. -/
def stableSortJS (cmp : α → α → Int) (l : List α) : List α :=
  l.foldl (fun acc x => insertJS cmp x acc) []

/-- `aValue === null || aValue === undefined` for a field access. -/
def nullishB : Option Value → Bool
  | none => true
  | some .null => true
  | some .undef => true
  | some _ => false

/-- `String(value)` as used by the comparator's fallback branch.  The
string rendering of a `Date` object is modelled injectively from its
timestamp; no claim depends on its exact text. -/
def jsStringO : Option Value → String
  | some (.str s) => s
  | some (.num n) => toString n
  | some (.date t) => "@Date:" ++ toString t
  | some (.bool b) => if b then "true" else "false"
  | some .null => "null"
  | some .undef => "undefined"
  | none => "undefined"

/-- The comparator closure passed to `sort` by `applySorting`: null or
missing values on either side win immediately (`1` / `-1`), same-typed
strings, numbers and dates compare natively (reversed when descending),
and everything else falls back to comparing `String(...)` renderings. -/
def jsComparator (sortField : String) (isDesc : Bool) (a b : Item) : Int :=
  let aValue := getField a sortField
  let bValue := getField b sortField
  if nullishB aValue then 1
  else if nullishB bValue then -1
  else
    match aValue, bValue with
    | some (.str x), some (.str y) => if isDesc then strCmp y x else strCmp x y
    | some (.num x), some (.num y) => if isDesc then y - x else x - y
    | some (.date x), some (.date y) => if isDesc then y - x else x - y
    | x, y =>
      if isDesc then strCmp (jsStringO y) (jsStringO x)
      else strCmp (jsStringO x) (jsStringO y)

/-- First component of `sort.split(',')` — the sort field. -/
def sortFieldOf (sort : String) : String := ((splitCommas sort).get? 0).getD ""

/-- `sortDirection?.toUpperCase() === 'DESC'`. -/
def isDescOf (sort : String) : Bool :=
  ((splitCommas sort).get? 1).map upperStr = some "DESC"

/-- `FilterService.applySorting`: an empty sort string (falsy in JS)
returns the data unchanged, otherwise the array is sorted by the
comparator derived from the `'field,DIRECTION'` spec. -/
def applySorting (data : List Item) (sort : String) : List Item :=
  if sort = "" then data
  else stableSortJS (jsComparator (sortFieldOf sort) (isDescOf sort)) data

/-! ## Pagination (`applyPagination`) -/

/-- `Array.prototype.slice(start, end)` with integer arguments: negative
indices count from the end, both indices are clamped to `[0, length]`. -/
def jsSlice (l : List α) (start stop : Int) : List α :=
  let len : Int := l.length
  let s := if start < 0 then max (len + start) 0 else min start len
  let e := if stop < 0 then max (len + stop) 0 else min stop len
  (l.drop s.toNat).take (e - s).toNat

/-- `Math.ceil(total / limit)` for an integer `total ≥ 0`: exact ceiling
division.  `limit = 0` yields a non-finite JS value outside the integer
model (and outside every claim); it is mapped to `0`. -/
def mathCeilDiv (total : Int) (limit : Int) : Int :=
  if 0 < limit then (total + limit - 1) / limit
  else if limit < 0 then -(total / (-limit))
  else 0

/-- The result shape `{data, count, total, page, pageCount}`. -/
structure PageResult where
  data : List Item
  count : Nat
  total : Nat
  page : Int
  pageCount : Int
deriving DecidableEq

/-- `FilterService.applyPagination`. -/
def applyPagination (data : List Item) (page limit : Int) : PageResult :=
  let total := data.length
  let startIndex := (page - 1) * limit
  let endIndex := startIndex + limit
  let paginatedData := jsSlice data startIndex endIndex
  let pageCount := mathCeilDiv total limit
  { data := paginatedData
    count := paginatedData.length
    total := total
    page := page
    pageCount := pageCount }

/-! ## The store handle and the orchestrator (`processQuery`) -/

/-- The DynamoDB model handle as the pipeline uses it: `scan()` starts
from its rows; `exec()` either returns every row matching the accumulated
conditions or fails with a store-level error (timeout, throttling,
connectivity). -/
structure Model where
  rows : List Item
  scanError : Option String := none
deriving DecidableEq

/-- `scanQuery.exec()`: the store evaluates the conjunction of the
attached conditions over a full scan, or fails. -/
def execScan (m : Model) (conds : List Cond) : Except String (List Item) :=
  match m.scanError with
  | some e => .error e
  | none => .ok (m.rows.filter (fun r => conds.all (fun c => evalCond c r)))

/-- `FilterService.processQuery`: build the scan query (filters are only
applied when the list is non-empty), execute the scan, sort in memory,
paginate. -/
def processQuery (model : Model) (filters : List String)
    (fieldTypes : List (String × String)) (sort : String)
    (page limit : Int) : Except String PageResult := do
  let scanConds ←
    if filters.isEmpty then pure []
    else applyDynamoDBFilters [] filters fieldTypes
  let allData ← execScan model scanConds
  let sortedData := applySorting allData sort
  pure (applyPagination sortedData page limit)

deriving instance DecidableEq for Except

/-! ## Derived definitions used by the statements -/

/-- The split-shape invariant: a block of elements not satisfying `N`
followed by a block of elements satisfying `N`. -/
def SinkShape {α : Type} (N : α → Prop) (l : List α) : Prop :=
  ∃ l₁ l₂, l = l₁ ++ l₂ ∧ (∀ x ∈ l₁, ¬ N x) ∧ (∀ x ∈ l₂, N x)

/-- The sort-field value is a number, `null`, `undefined`, or missing —
the domain on which the comparator's strict part is asymmetric and
transitive, so every stable comparison sort agrees there. -/
def numOrNullB : Option Value → Bool
  | none => true
  | some .null => true
  | some .undef => true
  | some (.num _) => true
  | some _ => false

/-- The numeric sort key of an item (`none` for null/missing). -/
def numKey (f : String) (r : Item) : Option Int :=
  match getField r f with
  | some (.num n) => some n
  | _ => none

/-- The comparator restricted to numeric-or-nullish keys. -/
def cmpNN (isDesc : Bool) : Option Int → Option Int → Int
  | none, _ => 1
  | some _, none => -1
  | some x, some y => if isDesc then y - x else x - y

/-- The recognized operator strings of the `switch`. -/
def recognizedOps : List String :=
  ["eq", "ne", "cont", "between", "gt", "gte", "lt", "lte", "isnull", "notnull"]

/-- The filtering stage of the pipeline alone: build the scan conditions
from the filter strings and execute the scan against the rows (no sort,
no pagination) — the `filter(R, conditions)` of the specification. -/
def filterStage (rows : List Item) (filters : List String)
    (ft : List (String × String)) : Except String (List Item) :=
  (applyDynamoDBFilters [] filters ft).bind (fun conds => execScan ⟨rows, none⟩ conds)

/-! ## Theory of the stable comparison sort -/

section StableSortTheory

variable {α : Type} (cmp : α → α → Int)

theorem mem_insertJS {x y : α} {l : List α} :
    y ∈ insertJS cmp x l ↔ y = x ∨ y ∈ l := by
  induction l with
  | nil => simp [insertJS]
  | cons z zs ih =>
    by_cases h : cmp x z < 0
    · simp [insertJS, h]
    · simp [insertJS, h, ih]
      tauto

theorem insertJS_append {x : α} {l : List α}
    (h : ∀ y ∈ l, ¬ cmp x y < 0) : insertJS cmp x l = l ++ [x] := by
  induction l with
  | nil => rfl
  | cons z zs ih =>
    have hz : ¬ cmp x z < 0 := h z (by simp)
    simp only [insertJS, if_neg hz, List.cons_append, List.cons.injEq, true_and]
    exact ih (fun y hy => h y (by simp [hy]))

theorem foldl_insertJS_append (l : List α) :
    ∀ acc : List α,
      (∀ x ∈ l, ∀ y ∈ acc, ¬ cmp x y < 0) →
      l.Pairwise (fun a b => ¬ cmp b a < 0) →
      l.foldl (fun acc x => insertJS cmp x acc) acc = acc ++ l := by
  induction l with
  | nil => intro acc _ _; simp
  | cons x xs ih =>
    intro acc hcross hsorted
    rw [List.pairwise_cons] at hsorted
    obtain ⟨hx, hxs⟩ := hsorted
    rw [List.foldl_cons,
      insertJS_append cmp (fun y hy => hcross x (by simp) y hy)]
    rw [ih (acc ++ [x]) ?_ hxs]
    · simp
    · intro z hz y hy
      rcases List.mem_append.mp hy with hy' | hy'
      · exact hcross z (by simp [hz]) y hy'
      · rcases List.mem_singleton.mp hy' with rfl
        exact hx z hz

/-- A list that is already in sorted order (no later element compares
strictly below an earlier one) is a fixed point of the sort. -/
theorem stableSortJS_eq_self {l : List α}
    (h : l.Pairwise (fun a b => ¬ cmp b a < 0)) :
    stableSortJS cmp l = l := by
  have := foldl_insertJS_append cmp l [] (by simp) h
  simpa [stableSortJS] using this

theorem mem_foldl_insertJS (l : List α) :
    ∀ (acc : List α) (y : α),
      y ∈ l.foldl (fun acc x => insertJS cmp x acc) acc ↔ y ∈ acc ∨ y ∈ l := by
  induction l with
  | nil => simp
  | cons x xs ih =>
    intro acc y
    rw [List.foldl_cons, ih, mem_insertJS]
    simp
    tauto

theorem mem_stableSortJS {l : List α} {y : α} :
    y ∈ stableSortJS cmp l ↔ y ∈ l := by
  rw [stableSortJS, mem_foldl_insertJS]
  simp

theorem insertJS_pairwise (P : α → Prop)
    (hasym : ∀ a b, P a → P b → cmp a b < 0 → ¬ cmp b a < 0)
    (htrans : ∀ a b c, P a → P b → P c → cmp a b < 0 → cmp b c < 0 → cmp a c < 0)
    {x : α} {l : List α} (hx : P x) (hl : ∀ y ∈ l, P y)
    (h : l.Pairwise (fun a b => ¬ cmp b a < 0)) :
    (insertJS cmp x l).Pairwise (fun a b => ¬ cmp b a < 0) := by
  induction l with
  | nil => simp [insertJS]
  | cons y ys ih =>
    rw [List.pairwise_cons] at h
    obtain ⟨hy, hys⟩ := h
    by_cases hc : cmp x y < 0
    · rw [insertJS, if_pos hc, List.pairwise_cons]
      refine ⟨?_, List.pairwise_cons.mpr ⟨hy, hys⟩⟩
      intro z hz
      rcases List.mem_cons.mp hz with rfl | hz'
      · exact hasym x z hx (hl z (by simp)) hc
      · intro contra
        exact hy z hz'
          (htrans z x y (hl z (by simp [hz'])) hx (hl y (by simp)) contra hc)
    · rw [insertJS, if_neg hc, List.pairwise_cons]
      refine ⟨?_, ih (fun z hz => hl z (by simp [hz])) hys⟩
      intro z hz
      rcases (mem_insertJS cmp).mp hz with rfl | hz'
      · exact hc
      · exact hy z hz'

theorem stableSortJS_pairwise (P : α → Prop)
    (hasym : ∀ a b, P a → P b → cmp a b < 0 → ¬ cmp b a < 0)
    (htrans : ∀ a b c, P a → P b → P c → cmp a b < 0 → cmp b c < 0 → cmp a c < 0)
    {l : List α} (hl : ∀ x ∈ l, P x) :
    (stableSortJS cmp l).Pairwise (fun a b => ¬ cmp b a < 0) := by
  rw [stableSortJS]
  have aux : ∀ l' : List α, (∀ x ∈ l', P x) →
      ∀ acc : List α, (∀ y ∈ acc, P y) →
      acc.Pairwise (fun a b => ¬ cmp b a < 0) →
      (l'.foldl (fun acc x => insertJS cmp x acc) acc).Pairwise
        (fun a b => ¬ cmp b a < 0) := by
    intro l'
    induction l' with
    | nil => intro _ acc _ hacc; simpa using hacc
    | cons x xs ih =>
      intro hl' acc hP hacc
      rw [List.foldl_cons]
      refine ih (fun z hz => hl' z (by simp [hz])) (insertJS cmp x acc) ?_ ?_
      · intro z hz
        rcases (mem_insertJS cmp).mp hz with rfl | hz'
        · exact hl' z (by simp)
        · exact hP z hz'
      · exact insertJS_pairwise cmp P hasym htrans (hl' x (by simp)) hP hacc
  exact aux l hl [] (by simp) (by simp)

/-- Sorting with a comparator that is asymmetric and transitive on the
elements involved is idempotent. -/
theorem stableSortJS_idem (P : α → Prop)
    (hasym : ∀ a b, P a → P b → cmp a b < 0 → ¬ cmp b a < 0)
    (htrans : ∀ a b c, P a → P b → P c → cmp a b < 0 → cmp b c < 0 → cmp a c < 0)
    {l : List α} (hl : ∀ x ∈ l, P x) :
    stableSortJS cmp (stableSortJS cmp l) = stableSortJS cmp l :=
  stableSortJS_eq_self cmp (stableSortJS_pairwise cmp P hasym htrans hl)

theorem insertJS_append_block (N : α → Prop)
    (hsink : ∀ x y, ¬ N x → N y → cmp x y < 0)
    {x : α} (hx : ¬ N x) {l₁ l₂ : List α} (hl₂ : ∀ y ∈ l₂, N y) :
    insertJS cmp x (l₁ ++ l₂) = insertJS cmp x l₁ ++ l₂ := by
  induction l₁ with
  | nil =>
    cases l₂ with
    | nil => rfl
    | cons n ns =>
      have : cmp x n < 0 := hsink x n hx (hl₂ n (by simp))
      simp [insertJS, this]
  | cons y ys ih =>
    by_cases h : cmp x y < 0 <;> simp [insertJS, h, ih]

theorem insertJS_sinkShape (N : α → Prop)
    (hfloat : ∀ x y, N x → ¬ cmp x y < 0)
    (hsink : ∀ x y, ¬ N x → N y → cmp x y < 0)
    {x : α} {l : List α} (h : SinkShape N l) :
    SinkShape N (insertJS cmp x l) := by
  obtain ⟨l₁, l₂, rfl, h₁, h₂⟩ := h
  by_cases hx : N x
  · refine ⟨l₁, l₂ ++ [x], ?_, h₁, ?_⟩
    · rw [insertJS_append cmp (fun y _ => hfloat x y hx), List.append_assoc]
    · intro z hz
      rcases List.mem_append.mp hz with hz' | hz'
      · exact h₂ z hz'
      · rcases List.mem_singleton.mp hz' with rfl; exact hx
  · refine ⟨insertJS cmp x l₁, l₂,
      insertJS_append_block cmp N hsink hx h₂, ?_, h₂⟩
    intro z hz
    rcases (mem_insertJS cmp).mp hz with rfl | hz'
    · exact hx
    · exact h₁ z hz'

/-- Elements satisfying the sink predicate `N` end up after all the
others: the sorted list splits as non-`N` block followed by `N` block. -/
theorem stableSortJS_sinkShape (N : α → Prop)
    (hfloat : ∀ x y, N x → ¬ cmp x y < 0)
    (hsink : ∀ x y, ¬ N x → N y → cmp x y < 0)
    (l : List α) : SinkShape N (stableSortJS cmp l) := by
  rw [stableSortJS]
  suffices h : ∀ acc : List α, SinkShape N acc →
      SinkShape N (l.foldl (fun acc x => insertJS cmp x acc) acc) by
    exact h [] ⟨[], [], rfl, by simp, by simp⟩
  induction l with
  | nil => intro acc hacc; simpa using hacc
  | cons x xs ih =>
    intro acc hacc
    rw [List.foldl_cons]
    exact ih (insertJS cmp x acc) (insertJS_sinkShape cmp N hfloat hsink hacc)

end StableSortTheory

/-! ## The comparator on numeric-or-nullish sort keys -/

theorem jsComparator_eq_cmpNN (f : String) (d : Bool) {a b : Item}
    (ha : numOrNullB (getField a f) = true)
    (hb : numOrNullB (getField b f) = true) :
    jsComparator f d a b = cmpNN d (numKey f a) (numKey f b) := by
  rcases hga : getField a f with _ | va
  · simp [jsComparator, numKey, nullishB, cmpNN, hga]
  · rcases va with s | x | t | bo | _ | _
    · rw [hga] at ha; simp [numOrNullB] at ha
    · rcases hgb : getField b f with _ | vb
      · simp [jsComparator, numKey, nullishB, cmpNN, hga, hgb]
      · rcases vb with s' | y | t' | bo' | _ | _
        · rw [hgb] at hb; simp [numOrNullB] at hb
        · simp [jsComparator, numKey, nullishB, cmpNN, hga, hgb]
        · rw [hgb] at hb; simp [numOrNullB] at hb
        · rw [hgb] at hb; simp [numOrNullB] at hb
        · simp [jsComparator, numKey, nullishB, cmpNN, hga, hgb]
        · simp [jsComparator, numKey, nullishB, cmpNN, hga, hgb]
    · rw [hga] at ha; simp [numOrNullB] at ha
    · rw [hga] at ha; simp [numOrNullB] at ha
    · simp [jsComparator, numKey, nullishB, cmpNN, hga]
    · simp [jsComparator, numKey, nullishB, cmpNN, hga]

theorem cmpNN_asym (d : Bool) (u v : Option Int) :
    cmpNN d u v < 0 → ¬ cmpNN d v u < 0 := by
  rcases u with _ | x <;> rcases v with _ | y <;> cases d <;>
    simp [cmpNN] <;> omega

theorem cmpNN_trans (d : Bool) (u v w : Option Int) :
    cmpNN d u v < 0 → cmpNN d v w < 0 → cmpNN d u w < 0 := by
  rcases u with _ | x <;> rcases v with _ | y <;> rcases w with _ | z <;>
    cases d <;> simp [cmpNN] <;> omega

theorem jsComparator_asym (f : String) (d : Bool) (a b : Item)
    (ha : numOrNullB (getField a f) = true)
    (hb : numOrNullB (getField b f) = true) :
    jsComparator f d a b < 0 → ¬ jsComparator f d b a < 0 := by
  rw [jsComparator_eq_cmpNN f d ha hb, jsComparator_eq_cmpNN f d hb ha]
  exact cmpNN_asym d _ _

theorem jsComparator_trans (f : String) (d : Bool) (a b c : Item)
    (ha : numOrNullB (getField a f) = true)
    (hb : numOrNullB (getField b f) = true)
    (hc : numOrNullB (getField c f) = true) :
    jsComparator f d a b < 0 → jsComparator f d b c < 0 →
    jsComparator f d a c < 0 := by
  rw [jsComparator_eq_cmpNN f d ha hb, jsComparator_eq_cmpNN f d hb hc,
    jsComparator_eq_cmpNN f d ha hc]
  exact cmpNN_trans d _ _ _

/-- A null/missing sort key never compares strictly below anything: the
comparator returns `1` immediately. -/
theorem jsComparator_float (f : String) (d : Bool) (a b : Item)
    (ha : nullishB (getField a f) = true) :
    ¬ jsComparator f d a b < 0 := by
  simp [jsComparator, ha]

/-- A present sort key always compares strictly below a null/missing one:
the comparator returns `-1`. -/
theorem jsComparator_sink (f : String) (d : Bool) (a b : Item)
    (ha : ¬ nullishB (getField a f) = true)
    (hb : nullishB (getField b f) = true) :
    jsComparator f d a b < 0 := by
  simp only [Bool.not_eq_true] at ha
  simp [jsComparator, ha, hb]

/-! ## Predicate-building lemmas -/

theorem applyDynamoDBFilters_nil (acc : List Cond) (ft : List (String × String)) :
    applyDynamoDBFilters acc [] ft = .ok acc := rfl

theorem applyDynamoDBFilters_cons (acc : List Cond) (s : String)
    (rest : List String) (ft : List (String × String)) :
    applyDynamoDBFilters acc (s :: rest) ft =
      (applyFilterStr acc s ft).bind
        (fun acc' => applyDynamoDBFilters acc' rest ft) := rfl

/-- Threading an accumulated condition list through one forEach step just
prepends it: each branch of the operator dispatch appends at most one
condition to the accumulator. -/
theorem applyFilterStr_append (acc : List Cond) (s : String)
    (ft : List (String × String)) :
    applyFilterStr acc s ft =
      (applyFilterStr [] s ft).map (fun δ => acc ++ δ) := by
  simp only [applyFilterStr]
  by_cases e1 : (splitPipes s).get? 1 = some "eq"
  · simp only [if_pos e1]
    cases hcv : convertFilterValue (((splitPipes s).get? 0).getD "") ((splitPipes s).get? 2) ft <;> rfl
  simp only [if_neg e1]
  by_cases e2 : (splitPipes s).get? 1 = some "ne"
  · simp only [if_pos e2]
    cases hcv : convertFilterValue (((splitPipes s).get? 0).getD "") ((splitPipes s).get? 2) ft <;> rfl
  simp only [if_neg e2]
  by_cases e3 : (splitPipes s).get? 1 = some "cont"
  · simp only [if_pos e3]; rfl
  simp only [if_neg e3]
  by_cases e4 : (splitPipes s).get? 1 = some "between"
  · simp only [if_pos e4]
    cases h2 : (splitPipes s).get? 2 with
    | none => rfl
    | some v =>
      by_cases hc : strContainsB v "," = true
      · simp only [if_pos hc]
        cases hdm : (splitCommas v).mapM decodeURIComponentE <;> rfl
      · simp only [if_neg hc, Except.map, List.append_nil]
  simp only [if_neg e4]
  by_cases e5 : (splitPipes s).get? 1 = some "gt"
  · simp only [if_pos e5]
    cases hcv : convertFilterValue (((splitPipes s).get? 0).getD "") ((splitPipes s).get? 2) ft <;> rfl
  simp only [if_neg e5]
  by_cases e6 : (splitPipes s).get? 1 = some "gte"
  · simp only [if_pos e6]
    cases hcv : convertFilterValue (((splitPipes s).get? 0).getD "") ((splitPipes s).get? 2) ft <;> rfl
  simp only [if_neg e6]
  by_cases e7 : (splitPipes s).get? 1 = some "lt"
  · simp only [if_pos e7]
    cases hcv : convertFilterValue (((splitPipes s).get? 0).getD "") ((splitPipes s).get? 2) ft <;> rfl
  simp only [if_neg e7]
  by_cases e8 : (splitPipes s).get? 1 = some "lte"
  · simp only [if_pos e8]
    cases hcv : convertFilterValue (((splitPipes s).get? 0).getD "") ((splitPipes s).get? 2) ft <;> rfl
  simp only [if_neg e8]
  by_cases e9 : (splitPipes s).get? 1 = some "isnull"
  · simp only [if_pos e9]; rfl
  simp only [if_neg e9]
  by_cases e10 : (splitPipes s).get? 1 = some "notnull"
  · simp only [if_pos e10]; rfl
  simp only [if_neg e10, Except.map, List.append_nil]

theorem applyFilterStr_skip {s : String} {ft : List (String × String)}
    (h : applyFilterStr [] s ft = .ok []) (acc : List Cond) :
    applyFilterStr acc s ft = .ok acc := by
  rw [applyFilterStr_append, h]
  simp [Except.map]

/-- A filter string that contributes no condition can be removed from the
filter list without changing the built scan query. -/
theorem applyDynamoDBFilters_drop {s : String} {ft : List (String × String)}
    (h : applyFilterStr [] s ft = .ok [])
    (l₁ l₂ : List String) (acc : List Cond) :
    applyDynamoDBFilters acc (l₁ ++ s :: l₂) ft =
      applyDynamoDBFilters acc (l₁ ++ l₂) ft := by
  induction l₁ generalizing acc with
  | nil =>
    rw [List.nil_append, List.nil_append, applyDynamoDBFilters_cons,
      applyFilterStr_skip h acc]
    rfl
  | cons t ts ih =>
    rw [List.cons_append, List.cons_append, applyDynamoDBFilters_cons,
      applyDynamoDBFilters_cons]
    cases hres : applyFilterStr acc t ft with
    | error e => rfl
    | ok acc' => simpa [Except.bind] using ih acc'

/-- Lifting the removal through the whole pipeline. -/
theorem processQuery_drop {s : String} {ft : List (String × String)}
    (h : applyFilterStr [] s ft = .ok [])
    (m : Model) (l₁ l₂ : List String) (sort : String) (page limit : Int) :
    processQuery m (l₁ ++ s :: l₂) ft sort page limit =
      processQuery m (l₁ ++ l₂) ft sort page limit := by
  unfold processQuery
  have hne : (l₁ ++ s :: l₂).isEmpty = false := by
    cases l₁ <;> rfl
  cases hl : (l₁ ++ l₂).isEmpty with
  | true =>
    rcases List.append_eq_nil.mp (List.isEmpty_iff.mp hl) with ⟨rfl, rfl⟩
    rw [List.nil_append, List.nil_append]
    simp only [List.isEmpty_cons, List.isEmpty_nil, if_false, if_true,
      Bool.false_eq_true, ite_false, ite_true]
    rw [applyDynamoDBFilters_cons, applyFilterStr_skip h]
    rfl
  | false =>
    simp only [hne, hl, Bool.false_eq_true, ite_false]
    rw [applyDynamoDBFilters_drop h]

/-- An unrecognized operator falls through the whole dispatch chain and
leaves the scan query untouched. -/
theorem applyFilterStr_unknown_op {s op : String} (ft : List (String × String))
    (hop : (splitPipes s).get? 1 = some op)
    (h : op ∉ recognizedOps) :
    applyFilterStr [] s ft = .ok [] := by
  simp only [recognizedOps, List.mem_cons, List.not_mem_nil, or_false,
    not_or] at h
  obtain ⟨h1, h2, h3, h4, h5, h6, h7, h8, h9, h10⟩ := h
  have hop' : (splitPipes s)[1]? = some op := by
    rw [← List.get?_eq_getElem?]; exact hop
  simp [applyFilterStr, hop, hop', h1, h2, h3, h4, h5, h6, h7, h8, h9, h10]

/-- With a non-negative offset and width, the slice is plain
drop-then-take. -/
theorem jsSlice_nonneg {α : Type} (l : List α) (s limit : Int)
    (hs : 0 ≤ s) (hlim : 0 ≤ limit) :
    jsSlice l s (s + limit) = (l.drop s.toNat).take limit.toNat := by
  simp only [jsSlice]
  rw [if_neg (by omega), if_neg (by omega)]
  by_cases hcase : (l.length : Int) ≤ s
  · have h1 : (min s (l.length : Int)).toNat = l.length := by omega
    have h2 : (min (s + limit) (l.length : Int) - min s (l.length : Int)).toNat = 0 := by
      omega
    rw [h1, h2, List.take_zero, List.drop_eq_nil_of_le (by omega), List.take_nil]
  · push_neg at hcase
    have h1 : (min s (l.length : Int)).toNat = s.toNat := by omega
    rw [h1]
    by_cases hend : s + limit ≤ (l.length : Int)
    · have h2 : (min (s + limit) (l.length : Int) - min s (l.length : Int)).toNat
          = limit.toNat := by omega
      rw [h2]
    · push_neg at hend
      have h2 : (min (s + limit) (l.length : Int) - min s (l.length : Int)).toNat
          = l.length - s.toNat := by omega
      rw [h2, List.take_of_length_le (by rw [List.length_drop]),
        List.take_of_length_le (by rw [List.length_drop]; omega)]

/-- The exact ceiling characterization of `mathCeilDiv` for a positive
limit. -/
theorem mathCeilDiv_eq_ceil (total : Nat) (limit : Int) (h : 1 ≤ limit) :
    mathCeilDiv total limit = ⌈(total : ℚ) / (limit : ℚ)⌉ := by
  rw [mathCeilDiv, if_pos (by omega)]
  set z := ((total : Int) + limit - 1) / limit with hzdef
  have h1 := Int.ediv_add_emod ((total : Int) + limit - 1) limit
  have h2 := Int.emod_nonneg ((total : Int) + limit - 1) (by omega : limit ≠ 0)
  have h3 := Int.emod_lt_of_pos ((total : Int) + limit - 1) h
  have hl0 : (0 : ℚ) < (limit : ℚ) := by exact_mod_cast h
  have ha : (total : Int) ≤ limit * z := by rw [hzdef]; linarith
  have hb : limit * z ≤ (total : Int) + limit - 1 := by rw [hzdef]; linarith
  rw [eq_comm, Int.ceil_eq_iff]
  constructor
  · have hq : ((z : ℚ) - 1) * (limit : ℚ) < (total : ℚ) := by
      have hcast : ((limit * z : Int) : ℚ) ≤ ((total : Int) : ℚ) + (limit : ℚ) - 1 := by
        exact_mod_cast hb
      push_cast at hcast ⊢
      nlinarith
    have := (lt_div_iff₀ hl0).mpr hq
    linarith
  · rw [div_le_iff₀ hl0]
    have hcast : ((total : Int) : ℚ) ≤ ((limit * z : Int) : ℚ) := by exact_mod_cast ha
    push_cast at hcast ⊢
    nlinarith

theorem mathCeilDiv_eq_zero_iff (total : Nat) (limit : Int) (h : 1 ≤ limit) :
    (mathCeilDiv total limit = 0 ↔ total = 0) := by
  rw [mathCeilDiv, if_pos (by omega)]
  set z := ((total : Int) + limit - 1) / limit with hzdef
  have h1 := Int.ediv_add_emod ((total : Int) + limit - 1) limit
  have h2 := Int.emod_nonneg ((total : Int) + limit - 1) (by omega : limit ≠ 0)
  have h3 := Int.emod_lt_of_pos ((total : Int) + limit - 1) h
  have ha : (total : Int) ≤ limit * z := by rw [hzdef]; linarith
  have hb : limit * z ≤ (total : Int) + limit - 1 := by rw [hzdef]; linarith
  constructor
  · intro hz
    rw [hz, mul_zero] at ha
    omega
  · intro hz
    have h4 : 0 ≤ z := Int.ediv_nonneg (by omega) (by omega)
    rcases lt_or_eq_of_le h4 with hlt | heq
    · exfalso
      have hmul : limit * 1 ≤ limit * z :=
        mul_le_mul_of_nonneg_left (by omega) (by omega)
      rw [mul_one] at hmul
      omega
    · omega

/-- Conjoined conditions filter like two successive filters. -/
theorem filter_all_append (rows : List Item) (δ₁ δ₂ : List Cond) :
    rows.filter (fun r => (δ₁ ++ δ₂).all (fun c => evalCond c r)) =
    (rows.filter (fun r => δ₁.all (fun c => evalCond c r))).filter
      (fun r => δ₂.all (fun c => evalCond c r)) := by
  rw [List.filter_filter]
  apply List.filter_congr
  intro a _
  simp [List.all_append, Bool.and_comm]

/-! ## The claims -/

/-- **C2.** For every input sequence and every `page ≥ 1`, `limit ≥ 1`,
the `PageResult` satisfies `count = |data|`, `count ≤ limit`,
`total = |input|`, `pageCount = ⌈total / limit⌉`, and `pageCount = 0` iff
`total = 0`. -/
theorem applyPagination_invariants (data : List Item) (page limit : Int)
    (hp : 1 ≤ page) (hl : 1 ≤ limit) :
    (applyPagination data page limit).count
        = (applyPagination data page limit).data.length ∧
    ((applyPagination data page limit).count : Int) ≤ limit ∧
    (applyPagination data page limit).total = data.length ∧
    (applyPagination data page limit).pageCount
        = ⌈(data.length : ℚ) / (limit : ℚ)⌉ ∧
    ((applyPagination data page limit).pageCount = 0 ↔ data.length = 0) := by
  refine ⟨rfl, ?_, rfl, mathCeilDiv_eq_ceil data.length limit hl,
    mathCeilDiv_eq_zero_iff data.length limit hl⟩
  show ((jsSlice data ((page - 1) * limit) ((page - 1) * limit + limit)).length : Int)
      ≤ limit
  rw [jsSlice_nonneg data _ _ (mul_nonneg (by omega) (by omega)) (by omega),
    List.length_take]
  have hmin : min limit.toNat (data.drop ((page - 1) * limit).toNat).length
      ≤ limit.toNat := min_le_left _ _
  omega

theorem applyPagination_invariants_witness :
    ((1 : Int) ≤ 2 ∧ (1 : Int) ≤ 2) ∧
    ((applyPagination [[("id", Value.num 1)], [("id", Value.num 2)], [("id", Value.num 3)]] 2 2).count
        = (applyPagination [[("id", Value.num 1)], [("id", Value.num 2)], [("id", Value.num 3)]] 2 2).data.length ∧
    (((applyPagination [[("id", Value.num 1)], [("id", Value.num 2)], [("id", Value.num 3)]] 2 2).count : Int)) ≤ 2 ∧
    (applyPagination [[("id", Value.num 1)], [("id", Value.num 2)], [("id", Value.num 3)]] 2 2).total
        = [[("id", Value.num 1)], [("id", Value.num 2)], [("id", Value.num 3)]].length ∧
    (applyPagination [[("id", Value.num 1)], [("id", Value.num 2)], [("id", Value.num 3)]] 2 2).pageCount
        = ⌈(([[("id", Value.num 1)], [("id", Value.num 2)], [("id", Value.num 3)]].length : ℚ)) / ((2 : Int) : ℚ)⌉ ∧
    ((applyPagination [[("id", Value.num 1)], [("id", Value.num 2)], [("id", Value.num 3)]] 2 2).pageCount = 0
        ↔ [[("id", Value.num 1)], [("id", Value.num 2)], [("id", Value.num 3)]].length = 0)) :=
  ⟨⟨by decide, by decide⟩,
    applyPagination_invariants [[("id", Value.num 1)], [("id", Value.num 2)], [("id", Value.num 3)]]
      2 2 (by decide) (by decide)⟩

/-- **C3.** The repository's own FILTERING_GUIDE.md documents `starts`
(`LIKE val%`) and `ends` (`LIKE %val`) as supported string operators, but
the dispatch `switch` has no case for either: the condition is silently
dropped (no condition is attached to the scan query) and a record whose
field value matches neither prefix nor suffix is still returned. -/
theorem starts_ends_dropped :
    applyFilterStr [] "name||starts||John" [("name", "String")] = .ok [] ∧
    applyFilterStr [] "email||ends||gmail.com" [("email", "String")] = .ok [] ∧
    processQuery ⟨[[("name", .str "Sarah")]], none⟩ ["name||starts||John"]
        [("name", "String")] "" 1 10
      = .ok { data := [[("name", .str "Sarah")]], count := 1, total := 1,
              page := 1, pageCount := 1 } :=
  ⟨by decide, by decide, by decide⟩

/-- Idempotence of `applySorting` on the fragment where the claim is
determined by the source: whenever the sort-field values are numeric,
`null`, `undefined`, or missing — in particular with two or more
null/missing records — sorting an already-sorted sequence is a no-op.
On mixed-type sort fields the comparator is not transitive (numbers
compare numerically but a number and a string compare as strings), so
ECMAScript leaves the engine's sort order implementation-defined there
and no statement about the program follows from the source; this theorem
covers the uniformly-typed fragment on which every stable comparison
sort agrees. -/
theorem applySorting_idem_uniform (data : List Item) (sort : String)
    (h : ∀ r ∈ data, numOrNullB (getField r (sortFieldOf sort)) = true) :
    applySorting (applySorting data sort) sort = applySorting data sort := by
  by_cases hs : sort = ""
  · simp [applySorting, hs]
  · simp only [applySorting, if_neg hs]
    exact stableSortJS_idem _
      (fun r => numOrNullB (getField r (sortFieldOf sort)) = true)
      (fun a b ha hb => jsComparator_asym (sortFieldOf sort) (isDescOf sort) a b ha hb)
      (fun a b c ha hb hc =>
        jsComparator_trans (sortFieldOf sort) (isDescOf sort) a b c ha hb hc)
      h

theorem applySorting_idem_uniform_witness :
    (∀ r ∈ [[("v", Value.null)], [("id", Value.num 9)], [("v", Value.num 3)],
            [("v", Value.null)], [("v", Value.num 1)]],
      numOrNullB (getField r (sortFieldOf "v,ASC")) = true) ∧
    applySorting (applySorting
        [[("v", Value.null)], [("id", Value.num 9)], [("v", Value.num 3)],
         [("v", Value.null)], [("v", Value.num 1)]] "v,ASC") "v,ASC"
      = applySorting
        [[("v", Value.null)], [("id", Value.num 9)], [("v", Value.num 3)],
         [("v", Value.null)], [("v", Value.num 1)]] "v,ASC" :=
  ⟨by decide,
    applySorting_idem_uniform
      [[("v", Value.null)], [("id", Value.num 9)], [("v", Value.num 3)],
       [("v", Value.null)], [("v", Value.num 1)]] "v,ASC" (by decide)⟩

/-- **C5.** For every record sequence and every non-empty sort spec (any
field, Ascending or Descending), the sorted output splits into a block of
records with a present sort-field value followed by a block of records
whose sort-field value is null or missing: nulls always sink to the end. -/
theorem applySorting_nulls_sink (data : List Item) (sort : String)
    (hs : sort ≠ "") :
    ∃ l₁ l₂, applySorting data sort = l₁ ++ l₂ ∧
      (∀ r ∈ l₁, nullishB (getField r (sortFieldOf sort)) = false) ∧
      (∀ r ∈ l₂, nullishB (getField r (sortFieldOf sort)) = true) := by
  simp only [applySorting, if_neg hs]
  have h := stableSortJS_sinkShape (jsComparator (sortFieldOf sort) (isDescOf sort))
    (fun r => nullishB (getField r (sortFieldOf sort)) = true)
    (fun x y hx => jsComparator_float (sortFieldOf sort) (isDescOf sort) x y hx)
    (fun x y hx hy => jsComparator_sink (sortFieldOf sort) (isDescOf sort) x y hx hy)
    data
  unfold SinkShape at h
  obtain ⟨l₁, l₂, heq, h₁, h₂⟩ := h
  exact ⟨l₁, l₂, heq, fun r hr => by simpa using h₁ r hr, h₂⟩

theorem applySorting_nulls_sink_witness :
    ("createdAt,DESC" : String) ≠ "" ∧
    ∃ l₁ l₂,
      applySorting [[("createdAt", Value.null)], [("createdAt", Value.num 5)],
          [("id", Value.num 7)], [("createdAt", Value.num 9)]] "createdAt,DESC"
        = l₁ ++ l₂ ∧
      (∀ r ∈ l₁, nullishB (getField r (sortFieldOf "createdAt,DESC")) = false) ∧
      (∀ r ∈ l₂, nullishB (getField r (sortFieldOf "createdAt,DESC")) = true) :=
  ⟨by decide,
    applySorting_nulls_sink
      [[("createdAt", Value.null)], [("createdAt", Value.num 5)],
       [("id", Value.num 7)], [("createdAt", Value.num 9)]]
      "createdAt,DESC" (by decide)⟩

/-- **C6.** For every record set and any two filter condition strings,
filtering with the list `[c₁, c₂]` equals filtering with `[c₁]` and then
filtering that result with `[c₂]` (AND composition), and every record of
the filtered result individually satisfies each built condition. -/
theorem filter_and_composition (rows : List Item) (c₁ c₂ : String)
    (ft : List (String × String)) :
    filterStage rows [c₁, c₂] ft =
      (filterStage rows [c₁] ft).bind (fun r₁ => filterStage r₁ [c₂] ft) ∧
    (∀ out conds, filterStage rows [c₁, c₂] ft = .ok out →
      applyDynamoDBFilters [] [c₁, c₂] ft = .ok conds →
      ∀ r ∈ out, conds.all (fun c => evalCond c r) = true) := by
  have key : applyDynamoDBFilters [] [c₁, c₂] ft =
      (applyFilterStr [] c₁ ft).bind (fun δ₁ =>
        (applyFilterStr [] c₂ ft).map (fun δ₂ => δ₁ ++ δ₂)) := by
    rw [applyDynamoDBFilters_cons]
    cases h1 : applyFilterStr [] c₁ ft with
    | error e => rfl
    | ok δ₁ =>
      show applyDynamoDBFilters δ₁ [c₂] ft = _
      rw [applyDynamoDBFilters_cons, applyFilterStr_append δ₁ c₂ ft]
      cases h2 : applyFilterStr [] c₂ ft with
      | error e => rfl
      | ok δ₂ => rfl
  constructor
  · rw [filterStage, key]
    cases h1 : applyFilterStr [] c₁ ft with
    | error e =>
      simp only [filterStage, applyDynamoDBFilters_cons,
        applyDynamoDBFilters_nil, h1, Except.bind]
    | ok δ₁ =>
      cases h2 : applyFilterStr [] c₂ ft with
      | error e =>
        simp only [filterStage, applyDynamoDBFilters_cons,
          applyDynamoDBFilters_nil, h1, h2, Except.bind, Except.map, execScan]
      | ok δ₂ =>
        simp only [filterStage, applyDynamoDBFilters_cons,
          applyDynamoDBFilters_nil, h1, h2, Except.bind, Except.map, execScan]
        exact congrArg Except.ok (filter_all_append rows δ₁ δ₂)
  · intro out conds hout hconds
    rw [filterStage, hconds] at hout
    have hfo : rows.filter (fun r => conds.all (fun c => evalCond c r)) = out :=
      Except.ok.inj hout
    intro r hr
    rw [← hfo] at hr
    have := List.of_mem_filter hr
    simpa using this

theorem filter_and_composition_witness :
    (filterStage [[("status", Value.num 1), ("name", Value.str "John")],
        [("status", Value.num 1), ("name", Value.str "Sarah")],
        [("status", Value.num 0), ("name", Value.str "Johnny")]]
      ["status||eq||1", "name||cont||oh"] [("status", "Number")] =
      (filterStage [[("status", Value.num 1), ("name", Value.str "John")],
          [("status", Value.num 1), ("name", Value.str "Sarah")],
          [("status", Value.num 0), ("name", Value.str "Johnny")]]
        ["status||eq||1"] [("status", "Number")]).bind
        (fun r₁ => filterStage r₁ ["name||cont||oh"] [("status", "Number")])) ∧
    (∀ r ∈ [[("status", Value.num 1), ("name", Value.str "John")]],
      [Cond.eq "status" (Value.num 1), Cond.contains "name" (some "oh")].all
        (fun c => evalCond c r) = true) :=
  ⟨(filter_and_composition
      [[("status", Value.num 1), ("name", Value.str "John")],
       [("status", Value.num 1), ("name", Value.str "Sarah")],
       [("status", Value.num 0), ("name", Value.str "Johnny")]]
      "status||eq||1" "name||cont||oh" [("status", "Number")]).1,
    (filter_and_composition
      [[("status", Value.num 1), ("name", Value.str "John")],
       [("status", Value.num 1), ("name", Value.str "Sarah")],
       [("status", Value.num 0), ("name", Value.str "Johnny")]]
      "status||eq||1" "name||cont||oh" [("status", "Number")]).2
      [[("status", Value.num 1), ("name", Value.str "John")]]
      [Cond.eq "status" (Value.num 1), Cond.contains "name" (some "oh")]
      (by decide) (by decide)⟩

/-- **C7.** For `page ≥ 1` and `limit ≥ 1`, `applyPagination` slices at
the zero-based offset `(page - 1) * limit`, and when this offset reaches
or passes the total record count the returned `data` is the empty
sequence — no error is raised. -/
theorem applyPagination_offset_slice (data : List Item) (page limit : Int)
    (hp : 1 ≤ page) (hl : 1 ≤ limit) :
    (applyPagination data page limit).data
        = (data.drop ((page - 1) * limit).toNat).take limit.toNat ∧
    ((data.length : Int) ≤ (page - 1) * limit →
      (applyPagination data page limit).data = []) := by
  have hmain : (applyPagination data page limit).data
      = (data.drop ((page - 1) * limit).toNat).take limit.toNat := by
    show jsSlice data ((page - 1) * limit) ((page - 1) * limit + limit) = _
    exact jsSlice_nonneg data _ _ (mul_nonneg (by omega) (by omega)) (by omega)
  refine ⟨hmain, fun hoff => ?_⟩
  rw [hmain, List.drop_eq_nil_of_le (by omega), List.take_nil]

theorem applyPagination_offset_slice_witness :
    ((1 : Int) ≤ 9 ∧ (1 : Int) ≤ 4) ∧
    ((applyPagination [[("id", Value.num 1)], [("id", Value.num 2)]] 9 4).data
        = ([[("id", Value.num 1)], [("id", Value.num 2)]].drop
            (((9 : Int) - 1) * 4).toNat).take (4 : Int).toNat ∧
    ((([[("id", Value.num 1)], [("id", Value.num 2)]].length : Int) ≤ ((9 : Int) - 1) * 4) →
      (applyPagination [[("id", Value.num 1)], [("id", Value.num 2)]] 9 4).data = [])) :=
  ⟨⟨by decide, by decide⟩,
    applyPagination_offset_slice [[("id", Value.num 1)], [("id", Value.num 2)]]
      9 4 (by decide) (by decide)⟩

/-- **C8.** A filter condition whose operator token is not in the
recognized set is silently dropped: the whole query result is identical
to the query with that condition removed, wherever the condition occurs
in the list. -/
theorem unknown_operator_dropped (s op : String)
    (hop : (splitPipes s).get? 1 = some op) (hunk : op ∉ recognizedOps)
    (m : Model) (l₁ l₂ : List String) (ft : List (String × String))
    (sort : String) (page limit : Int) :
    processQuery m (l₁ ++ s :: l₂) ft sort page limit =
      processQuery m (l₁ ++ l₂) ft sort page limit :=
  processQuery_drop (applyFilterStr_unknown_op ft hop hunk) m l₁ l₂ sort page limit

theorem unknown_operator_dropped_witness :
    ((splitPipes "status||foo||1").get? 1 = some "foo" ∧ "foo" ∉ recognizedOps) ∧
    processQuery ⟨[[("status", Value.num 0)], [("status", Value.num 1)]], none⟩
        (["id||gt||0"] ++ "status||foo||1" :: []) [("status", "Number"), ("id", "Number")]
        "id,ASC" 1 10 =
      processQuery ⟨[[("status", Value.num 0)], [("status", Value.num 1)]], none⟩
        (["id||gt||0"] ++ []) [("status", "Number"), ("id", "Number")] "id,ASC" 1 10 :=
  ⟨⟨by decide, by decide⟩,
    unknown_operator_dropped "status||foo||1" "foo" (by decide) (by decide)
      ⟨[[("status", Value.num 0)], [("status", Value.num 1)]], none⟩
      ["id||gt||0"] [] [("status", "Number"), ("id", "Number")] "id,ASC" 1 10⟩

end FilterService

/-! ## Regression checks: the concrete scenarios of the documentation -/

section Scenarios

open FilterService

-- records filtered by status, sorted id descending, one page
example :
    processQuery ⟨[[("id", .num 1), ("status", .num 1)],
                   [("id", .num 2), ("status", .num 0)],
                   [("id", .num 3), ("status", .num 1)]], none⟩
      ["status||eq||1"] [("status", "Number"), ("id", "Number")] "id,DESC" 1 10
    = .ok { data := [[("id", .num 3), ("status", .num 1)],
                     [("id", .num 1), ("status", .num 1)]],
            count := 2, total := 2, page := 1, pageCount := 1 } := by decide

-- same records with limit 1: one row on the page, pageCount 2
example :
    processQuery ⟨[[("id", .num 1), ("status", .num 1)],
                   [("id", .num 2), ("status", .num 0)],
                   [("id", .num 3), ("status", .num 1)]], none⟩
      ["status||eq||1"] [("status", "Number"), ("id", "Number")] "id,DESC" 1 1
    = .ok { data := [[("id", .num 3), ("status", .num 1)]],
            count := 1, total := 2, page := 1, pageCount := 2 } := by decide

-- a between filter with comma: both endpoints URL-decoded, kept as strings
example :
    applyFilterStr [] "createdAt||between||2024-01-01%2Cx,2024-12-31" [("createdAt", "Date")]
    = .ok [.between "createdAt" "2024-01-01,x" "2024-12-31"] := by decide

-- a between filter with a missing value part: the TypeError of the source
example :
    applyFilterStr [] "createdAt||between" [("createdAt", "Date")]
    = .error "TypeError: Cannot read properties of undefined (reading 'includes')" := by decide

-- a value-less filter on a Boolean-typed field: the TypeError of
-- convertFilterValue (undefined.toLowerCase) propagates out of the build
example :
    applyFilterStr [] "flag||eq" [("flag", "Boolean")]
    = .error "TypeError: Cannot read properties of undefined (reading 'toLowerCase')" := by
  decide

example :
    processQuery ⟨[[("flag", Value.bool true)]], none⟩ ["flag||eq"]
      [("flag", "Boolean")] "" 1 10
    = .error "TypeError: Cannot read properties of undefined (reading 'toLowerCase')" := by
  decide

-- a value-less filter on a String-typed field: undefined passes through
-- the default branch of convertFilterValue into the eq operand
example :
    applyFilterStr [] "name||eq" [("name", "String")]
    = .ok [.eq "name" .undef] := by decide

-- strict UTF-8 decoding: multi-byte escapes decode, overlong and
-- surrogate encodings raise URIError
example : decodeURIComponentE "caf%C3%A9" = .ok "café" := by decide
example : decodeURIComponentE "%E2%82%AC" = .ok "€" := by decide
example : decodeURIComponentE "%zz" = .error "URIError: URI malformed" := by decide
example : decodeURIComponentE "%C0%AF" = .error "URIError: URI malformed" := by decide
example : decodeURIComponentE "%ED%A0%80" = .error "URIError: URI malformed" := by decide
example : decodeURIComponentE "%C3" = .error "URIError: URI malformed" := by decide

-- the URIError surfaces even when only a later comma-split piece is
-- malformed (the source maps decodeURIComponent over every piece)
example :
    applyFilterStr [] "d||between||a,b,%zz" [("d", "Date")]
    = .error "URIError: URI malformed" := by decide

end Scenarios
